import Mathlib

/-!
Shallow embedding of `plot_projection.py`.

The script loads a tabular dataset (CSV or Excel, dispatching on the
file-name extension), groups it by the `Semana` column, sums the four
metric columns `Venda`, `Alvo`, `Reposicao`, `Estoque` per week
(`df.groupby("Semana")[METRICS].sum().sort_index()`), draws one line chart
per metric, creates the missing parent directories of the output path and
saves the figure there.

Cells are modelled as exact integers or strings (the two pandas cell
kinds relevant here); pandas floating-point sums become exact integer
sums, so "equal within floating-point tolerance" becomes equality.
The `sum` of a pandas object column of strings concatenates them, and a
mixed numeric/string column makes the aggregation raise; `Value.add` and
`sumCells` model exactly that.  The filesystem is a finite map from paths
(component lists) to file data, plus a set of existing directories.
-/

/-- A cell of the loaded table: a numeric value or a string. -/
inductive Value where
  | num (n : Int)
  | str (s : String)
deriving DecidableEq, Repr

/-- A row, as an association list from column name to cell. -/
abbrev Row := List (String × Value)

/-- Cell of row `r` in column `c`, if present. -/
def Row.cell (r : Row) (c : String) : Option Value :=
  (r.find? (fun p => p.1 == c)).map (fun p => p.2)

/-- An in-memory table: the column names and the rows, in file order. -/
structure DataFrame where
  cols : List String
  rows : List Row
deriving DecidableEq, Repr

/-- `METRICS = ["Venda", "Alvo", "Reposicao", "Estoque"]` from the script. -/
def METRICS : List String := ["Venda", "Alvo", "Reposicao", "Estoque"]

/-- Ordering on cell values used for `sort_index()`: numbers by the integer
order, strings lexicographically (pandas group keys are homogeneous, so the
cross cases never matter; they are fixed arbitrarily to keep the order total). -/
def Value.le : Value → Value → Bool
  | .num a, .num b => decide (a ≤ b)
  | .num _, .str _ => true
  | .str _, .num _ => false
  | .str a, .str b => decide (a ≤ b)

/-- `Value.le` as a proposition. -/
def ValueLe (a b : Value) : Prop := Value.le a b = true

instance : DecidableRel ValueLe := fun a b => Bool.decEq (Value.le a b) true

/-- The `Semana` cells of all rows, in row order. -/
def weekCells (df : DataFrame) : List Value :=
  df.rows.filterMap (fun r => r.cell "Semana")

/-- The distinct group keys of `groupby("Semana")`, sorted ascending
(`sort_index()`). -/
def sortedWeeks (df : DataFrame) : List Value :=
  (weekCells df).dedup.insertionSort ValueLe

/-- The cells of metric column `m` over the rows of the group with week `w`. -/
def groupCells (df : DataFrame) (w : Value) (m : String) : List Value :=
  (df.rows.filter (fun r => decide (r.cell "Semana" = some w))).filterMap
    (fun r => r.cell m)

/-- Addition of two cells, as pandas `sum` combines them: numbers add,
strings concatenate, a mixed pair raises. -/
def Value.add : Value → Value → Option Value
  | .num a, .num b => some (.num (a + b))
  | .str a, .str b => some (.str (a ++ b))
  | _, _ => none

/-- pandas group sum: the empty sum is numeric `0`, otherwise the cells are
folded with `Value.add` starting from the first. -/
def sumCells : List Value → Option Value
  | [] => some (.num 0)
  | v :: vs => vs.foldlM Value.add v

/-- The summed value of metric `m` for the week-`w` group. -/
def sumMetric (df : DataFrame) (w : Value) (m : String) : Option Value :=
  sumCells (groupCells df w m)

/-- The aggregated weekly table: one entry per distinct week, carrying the
four metric sums in `METRICS` order. -/
abbrev WeeklyTable := List (Value × List Value)

/-- Maps `f` over a list, succeeding only when every application succeeds
(propagating the first pandas exception). -/
def collectSome {α β : Type} (f : α → Option β) : List α → Option (List β)
  | [] => some []
  | a :: l => (f a).bind (fun b => (collectSome f l).map (fun bs => b :: bs))

/-- The rows of `df.groupby("Semana")[METRICS].sum().sort_index()`;
`none` when a group sum raises on mixed cell kinds. -/
def weeklyRows (df : DataFrame) : Option WeeklyTable :=
  collectSome (fun w =>
    (collectSome (fun m => sumMetric df w m) METRICS).map (fun sums => (w, sums)))
    (sortedWeeks df)

/-- Errors that `plot_projections` can raise before writing the figure. -/
inductive PlotError where
  | missingColumn (c : String)
  | typeError
deriving DecidableEq, Repr

deriving instance DecidableEq for Except

/-- Lines 49-53 of the script: `df.groupby("Semana")` raises a KeyError when
`Semana` is absent, the `[METRICS]` selection raises a KeyError when a metric
column is absent, and only then the per-group sums are computed. -/
def aggregateWeekly (df : DataFrame) : Except PlotError WeeklyTable :=
  if "Semana" ∈ df.cols then
    match METRICS.find? (fun m => decide (m ∉ df.cols)) with
    | some m => .error (.missingColumn m)
    | none =>
      match weeklyRows df with
      | some t => .ok t
      | none => .error .typeError
  else .error (.missingColumn "Semana")

/-- The data points `ax.plot(weekly.index, weekly[metric])` draws for the
metric at position `i` of `METRICS`: one `(week, summed value)` pair per
aggregated row. -/
def plotData (tbl : WeeklyTable) (i : Nat) : List (Value × Value) :=
  tbl.filterMap (fun p => (p.2.get? i).map (fun v => (p.1, v)))

/-- The numeric content of a cell, if any. -/
def Value.toInt : Value → Option Int
  | .num n => some n
  | .str _ => none

/-- Spec-side reference value (from the spec, not the code): the arithmetic
sum of the numeric cells of metric `m` over all input rows whose week
equals `w`. -/
def specMetricSum (df : DataFrame) (w : Value) (m : String) : Int :=
  ((df.rows.filter (fun r => decide (r.cell "Semana" = some w))).filterMap
    (fun r => (r.cell m).bind Value.toInt)).sum

/-- The table has the week column and the four metric columns. -/
def HasRequiredCols (df : DataFrame) : Prop :=
  "Semana" ∈ df.cols ∧ ∀ m ∈ METRICS, m ∈ df.cols

/-- Every row has a numeric cell in each of the four metric columns. -/
def NumericMetrics (df : DataFrame) : Prop :=
  ∀ r ∈ df.rows, ∀ m ∈ METRICS, ((r.cell m).bind Value.toInt).isSome = true

instance (df : DataFrame) : Decidable (HasRequiredCols df) := by
  unfold HasRequiredCols; infer_instance

instance (df : DataFrame) : Decidable (NumericMetrics df) := by
  unfold NumericMetrics; infer_instance

/-- The aggregated table as a closed formula: one entry per sorted distinct
week, carrying the four spec-side metric sums. -/
def canonWeekly (df : DataFrame) : WeeklyTable :=
  (sortedWeeks df).map
    (fun w => (w, METRICS.map (fun m => Value.num (specMetricSum df w m))))

/-- The aggregated value for week `w` of the metric at position `i` of
`METRICS`, read off the aggregation result. -/
def aggValue (res : Except PlotError WeeklyTable) (w : Value) (i : Nat) :
    Option Value :=
  match res with
  | .error _ => none
  | .ok tbl => (tbl.find? (fun p => decide (p.1 = w))).bind (fun p => p.2.get? i)

/-- The cells of a row that the aggregation reads: the week cell and the
four metric cells. -/
def restrictRow (r : Row) : Option Value × List (Option Value) :=
  (r.cell "Semana", METRICS.map (fun m => r.cell m))

/-- First row of the end-to-end example of the spec. -/
def exampleRow1 : Row :=
  [("FILIAL", .num 1), ("SKU", .str "A"), ("Semana", .num 1),
   ("Venda", .num 10), ("Alvo", .num 12), ("Reposicao", .num 2),
   ("Estoque", .num 50)]

/-- Second row of the end-to-end example of the spec. -/
def exampleRow2 : Row :=
  [("FILIAL", .num 2), ("SKU", .str "B"), ("Semana", .num 1),
   ("Venda", .num 5), ("Alvo", .num 6), ("Reposicao", .num 1),
   ("Estoque", .num 20)]

/-- The end-to-end example table of the spec. -/
def exampleDf : DataFrame :=
  ⟨["FILIAL", "SKU", "Semana", "Venda", "Alvo", "Reposicao", "Estoque"],
   [exampleRow1, exampleRow2]⟩

/-- A table lacking the week column and all four metric columns. -/
def noColsDf : DataFrame := ⟨["FILIAL", "SKU"], []⟩

/-- A table whose `Venda` cells are strings (a non-numeric metric column):
the pandas group sum concatenates them instead of failing. -/
def strDf : DataFrame :=
  ⟨["Semana", "Venda", "Alvo", "Reposicao", "Estoque"],
   [[("Semana", .num 1), ("Venda", .str "ab"), ("Alvo", .num 1),
     ("Reposicao", .num 1), ("Estoque", .num 1)],
    [("Semana", .num 1), ("Venda", .str "cd"), ("Alvo", .num 2),
     ("Reposicao", .num 2), ("Estoque", .num 2)]]⟩

/-- A table with the required columns but without `FILIAL` and `SKU`. -/
def noIdDf : DataFrame :=
  ⟨["Semana", "Venda", "Alvo", "Reposicao", "Estoque"],
   [[("Semana", .num 1), ("Venda", .num 3), ("Alvo", .num 4),
     ("Reposicao", .num 5), ("Estoque", .num 6)],
    [("Semana", .num 2), ("Venda", .num 7), ("Alvo", .num 8),
     ("Reposicao", .num 9), ("Estoque", .num 10)]]⟩

/-- `exampleDf` with different `FILIAL` and `SKU` values and an extra
column, but identical week and metric cells. -/
def exampleDfVariant : DataFrame :=
  ⟨["FILIAL", "SKU", "Semana", "Venda", "Alvo", "Reposicao", "Estoque", "Obs"],
   [[("FILIAL", .num 9), ("SKU", .str "Z"), ("Semana", .num 1),
     ("Venda", .num 10), ("Alvo", .num 12), ("Reposicao", .num 2),
     ("Estoque", .num 50), ("Obs", .str "x")],
    [("FILIAL", .num 8), ("SKU", .str "W"), ("Semana", .num 1),
     ("Venda", .num 5), ("Alvo", .num 6), ("Reposicao", .num 1),
     ("Estoque", .num 20), ("Obs", .str "y")]]⟩



/-! ## Extension dispatch of `load_dataset` (lines 38-40)

`path.suffix` follows Python `pathlib`: on the final path component
`name`, the suffix is `name[i:]` where `i` is the index of the last dot,
provided `0 < i < len(name) - 1`, and empty otherwise.  `.lower()` on the
ASCII extensions involved is character-wise lowering. -/

/-- The final component of a path (the part after the last `/`), on
character lists. -/
def lastComp (cs : List Char) : List Char :=
  (cs.reverse.takeWhile (fun c => decide (c ≠ '/'))).reverse

/-- Python `Path.suffix` of a file name given as a character list. -/
def nameSuffix (cs : List Char) : List Char :=
  match cs.reverse.findIdx? (fun c => decide (c = '.')) with
  | none => []
  | some j =>
    let i := cs.length - 1 - j
    if 0 < i ∧ i + 1 < cs.length then cs.drop i else []

/-- Python `Path.suffix` of a path string. -/
def pathSuffix (p : String) : String := ⟨nameSuffix (lastComp p.data)⟩

/-- Character-wise `str.lower()`. -/
def strLower (s : String) : String := ⟨s.data.map Char.toLower⟩

/-- The two parse formats `load_dataset` can choose. -/
inductive Format where
  | csv
  | excel
deriving DecidableEq, Repr

/-- The format `load_dataset` parses a path with:
`pd.read_csv` iff `path.suffix.lower() == ".csv"`, else `pd.read_excel`. -/
def load_format (p : String) : Format :=
  if strLower (pathSuffix p) = ".csv" then Format.csv else Format.excel

/-! ## The filesystem and the effectful pipeline -/

/-- A filesystem path, as its list of components. -/
abbrev FsPath := List String

/-- Contents of a file: a table stored in one of the two parse formats, a
rendered figure (determined by the aggregated weekly data drawn into it),
or other bytes that parse as neither. -/
inductive FileData where
  | table (fmt : Format) (df : DataFrame)
  | image (chart : WeeklyTable)
  | raw (s : String)
deriving DecidableEq, Repr

/-- A filesystem: the existing directories and a map from paths to file
contents. -/
structure FS where
  dirs : List FsPath
  files : List (FsPath × FileData)
deriving DecidableEq, Repr

/-- The contents of the file at `p`, if it exists. -/
def lookupFile (fs : FS) (p : FsPath) : Option FileData :=
  (fs.files.find? (fun q => q.1 == p)).map (fun q => q.2)

/-- A path rendered back to the string handed to `Path(...)`. -/
def fsPathString (p : FsPath) : String := String.intercalate "/" p

/-- Errors of the whole pipeline. -/
inductive AppError where
  | loading
  | plot (e : PlotError)
deriving DecidableEq, Repr

/-- `load_dataset` (lines 30-40) acting on the filesystem: a missing file
raises (`FileNotFoundError`), a file whose bytes are not in the format the
extension dispatches to raises a parse error, and otherwise the stored
table is returned. -/
def load_dataset (fs : FS) (p : FsPath) : Except AppError DataFrame :=
  match lookupFile fs p with
  | none => .error .loading
  | some (FileData.table fmt df) =>
    if fmt = load_format (fsPathString p) then .ok df else .error .loading
  | some _ => .error .loading

/-- The nonempty prefixes of a directory path: the directories
`d.mkdir(parents := True, exist_ok := True)` guarantees to exist. -/
def ancestors (d : FsPath) : List FsPath :=
  (List.range d.length).map (fun i => d.take (i + 1))

/-- `output.parent.mkdir(parents=True, exist_ok=True)` (line 63). -/
def mkdirParents (fs : FS) (d : FsPath) : FS :=
  { fs with dirs := fs.dirs ++ ancestors d }

/-- `fig.savefig(output)` (line 64): writes the file, silently replacing
any previous contents at that path. -/
def writeFile (fs : FS) (p : FsPath) (data : FileData) : FS :=
  { fs with files := (p, data) :: fs.files.filter (fun q => !(q.1 == p)) }

/-- `plot_projections` (lines 43-64) acting on the filesystem: aggregate
(raising on a missing column or a mixed-type sum, before anything is
written), then create the output's parent directories, then save the
figure. -/
def plot_projections (df : DataFrame) (output : FsPath) (fs : FS) :
    FS × Option PlotError :=
  match aggregateWeekly df with
  | .error e => (fs, some e)
  | .ok weekly =>
    let fs1 := mkdirParents fs output.dropLast
    (writeFile fs1 output (FileData.image weekly), none)

/-- `main` (lines 67-84): load the dataset, then plot; a loading error
stops the run before `plot_projections` is entered. -/
def main_run (inputFile output : FsPath) (fs : FS) : FS × Option AppError :=
  match load_dataset fs inputFile with
  | .error e => (fs, some e)
  | .ok df =>
    let r := plot_projections df output fs
    (r.1, r.2.map AppError.plot)

/-- A filesystem that already holds an old file at the default output path
(so that the overwrite is observable) but not its parent directory. -/
def outFs : FS := ⟨[], [(["outputs", "projecoes.png"], FileData.raw "old")]⟩

/-! ## Order facts about `ValueLe` -/

instance : IsTotal Value ValueLe :=
  ⟨by intro a b; cases a <;> cases b <;> simp [ValueLe, Value.le] <;> exact le_total _ _⟩

instance : IsTrans Value ValueLe :=
  ⟨by intro a b c hab hbc; cases a <;> cases b <;> cases c <;>
    simp_all [ValueLe, Value.le] <;> exact le_trans hab hbc⟩

instance : IsAntisymm Value ValueLe := ⟨by
  intro a b hab hba
  cases a with
  | num x => cases b with
    | num y =>
      have h1 : x ≤ y := by simpa [ValueLe, Value.le] using hab
      have h2 : y ≤ x := by simpa [ValueLe, Value.le] using hba
      exact congrArg Value.num (le_antisymm h1 h2)
    | str t => exact absurd hba (by simp [ValueLe, Value.le])
  | str s => cases b with
    | num y => exact absurd hab (by simp [ValueLe, Value.le])
    | str t =>
      have h1 : s ≤ t := by simpa [ValueLe, Value.le] using hab
      have h2 : t ≤ s := by simpa [ValueLe, Value.le] using hba
      exact congrArg Value.str (le_antisymm h1 h2)⟩

/-! ## Generic list helpers -/

theorem find?_key_self {w : Value} {ks : List Value} (hks : w ∈ ks) :
    ks.find? (fun k => decide (k = w)) = some w := by
  induction ks with
  | nil => cases hks
  | cons k ks ih =>
    rcases List.mem_cons.mp hks with h | h
    · subst h; simp [List.find?_cons]
    · by_cases hk : k = w
      · subst hk; simp [List.find?_cons]
      · simp [List.find?_cons, hk, ih h]

theorem collectSome_eq_map {α β : Type} {f : α → Option β} {g : α → β} :
    ∀ {l : List α}, (∀ a ∈ l, f a = some (g a)) → collectSome f l = some (l.map g) := by
  intro l
  induction l with
  | nil => intro _; rfl
  | cons a l ih =>
    intro h
    have ha := h a (List.mem_cons_self a l)
    have hl := ih (fun x hx => h x (List.mem_cons_of_mem _ hx))
    simp [collectSome, ha, hl]

theorem collectSome_congr {α β : Type} {f g : α → Option β} :
    ∀ {l : List α}, (∀ a ∈ l, f a = g a) → collectSome f l = collectSome g l := by
  intro l
  induction l with
  | nil => intro _; rfl
  | cons a l ih =>
    intro h
    simp [collectSome, h a (List.mem_cons_self a l),
      ih (fun x hx => h x (List.mem_cons_of_mem _ hx))]

theorem collectSome_pair_fst {f : Value → Option (List Value)} :
    ∀ {ks : List Value} {t : WeeklyTable},
      collectSome (fun w => (f w).map (fun sums => (w, sums))) ks = some t →
      t.map Prod.fst = ks := by
  intro ks
  induction ks with
  | nil => intro t h; simp [collectSome] at h; simp [← h]
  | cons k ks ih =>
    intro t h
    simp only [collectSome, Option.bind_eq_some, Option.map_eq_some'] at h
    obtain ⟨b, ⟨sums, hsums, hb⟩, hbt⟩ := h
    obtain ⟨t2, ht2, rfl⟩ := hbt
    subst hb
    simp [ih ht2]

theorem map_eq_forall {α β : Type} {f g : α → β} :
    ∀ {l : List α}, l.map f = l.map g → ∀ a ∈ l, f a = g a := by
  intro l
  induction l with
  | nil => intro _ a ha; cases ha
  | cons b l ih =>
    intro h a ha
    simp only [List.map_cons, List.cons.injEq] at h
    rcases List.mem_cons.mp ha with rfl | ha
    · exact h.1
    · exact ih h.2 a ha

/-! ## The aggregation in closed form, on numeric tables -/

theorem numericMetrics_cell {df : DataFrame} (h : NumericMetrics df) {r : Row}
    (hr : r ∈ df.rows) {m : String} (hm : m ∈ METRICS) :
    ∃ n : Int, r.cell m = some (Value.num n) := by
  have hs := h r hr m hm
  cases hc : r.cell m with
  | none => rw [hc] at hs; simp at hs
  | some v =>
    rw [hc] at hs
    cases v with
    | num n => exact ⟨n, rfl⟩
    | str s => simp [Value.toInt] at hs

theorem groupCells_num {df : DataFrame} (h : NumericMetrics df) {w : Value}
    {m : String} (hm : m ∈ METRICS) :
    ∀ v ∈ groupCells df w m, ∃ n : Int, v = Value.num n := by
  intro v hv
  unfold groupCells at hv
  obtain ⟨r, hr, hcell⟩ := List.mem_filterMap.mp hv
  obtain ⟨n, hn⟩ := numericMetrics_cell h (List.mem_filter.mp hr).1 hm
  rw [hn] at hcell
  exact ⟨n, (Option.some.inj hcell).symm⟩

theorem foldlM_add_num :
    ∀ (vs : List Value) (a : Int), (∀ v ∈ vs, ∃ n : Int, v = Value.num n) →
      vs.foldlM Value.add (Value.num a) =
        some (Value.num (a + (vs.filterMap Value.toInt).sum)) := by
  intro vs
  induction vs with
  | nil => intro a _; simp [List.foldlM]
  | cons v vs ih =>
    intro a h
    obtain ⟨n, rfl⟩ := h v (List.mem_cons_self v vs)
    have hrest := fun x hx => h x (List.mem_cons_of_mem _ hx)
    simp only [List.foldlM_cons, Value.add, Option.bind_eq_bind, Option.some_bind]
    rw [ih (a + n) hrest]
    simp [List.filterMap_cons, Value.toInt]
    omega

theorem sumCells_num {vs : List Value}
    (h : ∀ v ∈ vs, ∃ n : Int, v = Value.num n) :
    sumCells vs = some (Value.num ((vs.filterMap Value.toInt).sum)) := by
  cases vs with
  | nil => simp [sumCells]
  | cons v vs =>
    obtain ⟨n, rfl⟩ := h v (List.mem_cons_self v vs)
    have hrest := fun x hx => h x (List.mem_cons_of_mem _ hx)
    simp only [sumCells]
    rw [foldlM_add_num vs n hrest]
    simp [List.filterMap_cons, Value.toInt]

theorem sumMetric_eq_spec {df : DataFrame} (h : NumericMetrics df) {w : Value}
    {m : String} (hm : m ∈ METRICS) :
    sumMetric df w m = some (Value.num (specMetricSum df w m)) := by
  unfold sumMetric specMetricSum
  rw [sumCells_num (groupCells_num h hm)]
  unfold groupCells
  rw [List.filterMap_filterMap]

theorem weeklyRows_eq_canon {df : DataFrame} (h : NumericMetrics df) :
    weeklyRows df = some (canonWeekly df) := by
  unfold weeklyRows canonWeekly
  apply collectSome_eq_map
  intro w hw
  rw [collectSome_eq_map (fun m hm => sumMetric_eq_spec h hm)]
  simp

theorem aggregateWeekly_eq_of_hasCols {df : DataFrame} (h : HasRequiredCols df) :
    aggregateWeekly df =
      match weeklyRows df with
      | some t => Except.ok t
      | none => Except.error PlotError.typeError := by
  unfold aggregateWeekly
  rw [if_pos h.1]
  have hfind : METRICS.find? (fun m => decide (m ∉ df.cols)) = none := by
    rw [List.find?_eq_none]
    intro m hm
    simp [h.2 m hm]
  rw [hfind]

theorem aggregateWeekly_ok {df : DataFrame} (hc : HasRequiredCols df)
    (hn : NumericMetrics df) : aggregateWeekly df = Except.ok (canonWeekly df) := by
  rw [aggregateWeekly_eq_of_hasCols hc, weeklyRows_eq_canon hn]


/-! ## Inversion and congruence lemmas for the aggregation -/

theorem aggregate_ok_weeklyRows {df : DataFrame} {tbl : WeeklyTable}
    (h : aggregateWeekly df = Except.ok tbl) : weeklyRows df = some tbl := by
  unfold aggregateWeekly at h
  by_cases hsem : "Semana" ∈ df.cols
  · rw [if_pos hsem] at h
    cases hfind : METRICS.find? (fun m => decide (m ∉ df.cols)) with
    | some m => rw [hfind] at h; cases h
    | none =>
      rw [hfind] at h
      cases hweek : weeklyRows df with
      | some t => rw [hweek] at h; injection h with h2; rw [h2]
      | none => rw [hweek] at h; cases h
  · rw [if_neg hsem] at h; cases h

theorem weeklyRows_fst {df : DataFrame} {tbl : WeeklyTable}
    (h : weeklyRows df = some tbl) : tbl.map Prod.fst = sortedWeeks df := by
  unfold weeklyRows at h
  exact collectSome_pair_fst h

theorem weekCells_restrict {l1 l2 : List Row}
    (h : l1.map restrictRow = l2.map restrictRow) :
    l1.filterMap (fun r => r.cell "Semana") =
      l2.filterMap (fun r => r.cell "Semana") := by
  induction l1 generalizing l2 with
  | nil => cases l2 with
    | nil => rfl
    | cons b l2 => simp at h
  | cons a l1 ih =>
    cases l2 with
    | nil => simp at h
    | cons b l2 =>
      simp only [List.map_cons, List.cons.injEq] at h
      have hsem : a.cell "Semana" = b.cell "Semana" := congrArg Prod.fst h.1
      simp only [List.filterMap_cons]
      rw [hsem, ih h.2]

theorem groupCells_restrict {l1 l2 : List Row}
    (h : l1.map restrictRow = l2.map restrictRow) (w : Value) {m : String}
    (hm : m ∈ METRICS) :
    (l1.filter (fun r => decide (r.cell "Semana" = some w))).filterMap
        (fun r => r.cell m) =
      (l2.filter (fun r => decide (r.cell "Semana" = some w))).filterMap
        (fun r => r.cell m) := by
  induction l1 generalizing l2 with
  | nil => cases l2 with
    | nil => rfl
    | cons b l2 => simp at h
  | cons a l1 ih =>
    cases l2 with
    | nil => simp at h
    | cons b l2 =>
      simp only [List.map_cons, List.cons.injEq] at h
      have hsem : a.cell "Semana" = b.cell "Semana" := congrArg Prod.fst h.1
      have hcell : a.cell m = b.cell m :=
        map_eq_forall (congrArg Prod.snd h.1) m hm
      simp only [List.filter_cons]
      rw [hsem]
      by_cases hw : b.cell "Semana" = some w
      · rw [if_pos (by simp [hw]), if_pos (by simp [hw])]
        simp only [List.filterMap_cons]
        rw [hcell, ih h.2]
      · rw [if_neg (by simp [hw]), if_neg (by simp [hw])]
        exact ih h.2

theorem sumMetric_restrict {df1 df2 : DataFrame}
    (h : df1.rows.map restrictRow = df2.rows.map restrictRow) (w : Value)
    {m : String} (hm : m ∈ METRICS) :
    sumMetric df1 w m = sumMetric df2 w m := by
  unfold sumMetric groupCells
  rw [groupCells_restrict h w hm]

theorem weeklyRows_restrict {df1 df2 : DataFrame}
    (h : df1.rows.map restrictRow = df2.rows.map restrictRow) :
    weeklyRows df1 = weeklyRows df2 := by
  have hsorted : sortedWeeks df1 = sortedWeeks df2 := by
    unfold sortedWeeks weekCells
    rw [weekCells_restrict h]
  unfold weeklyRows
  rw [hsorted]
  apply collectSome_congr
  intro w hw
  rw [collectSome_congr (fun m hm => sumMetric_restrict h w hm)]

/-! ## Claim theorems -/

/-- C5: `load_dataset` parses a path as comma-separated values exactly when
its extension is `.csv` (the code compares the lowercased suffix), and
parses every other extension — including unrecognized ones such as
`.txt` — as the spreadsheet (Excel) format rather than rejecting it. -/
theorem extension_dispatch_csv_iff :
    (∀ p : String,
      load_format p = Format.csv ↔ strLower (pathSuffix p) = ".csv") ∧
    load_format "dados.txt" = Format.excel ∧
    load_format "dados.csv" = Format.csv := by
  refine ⟨fun p => ?_, by decide, by decide⟩
  unfold load_format
  by_cases h : strLower (pathSuffix p) = ".csv"
  · simp [h]
  · simp [h]

/-- C9: the extension dispatch is case-insensitive — any path whose
suffix lowercases to `.csv` is parsed as comma-separated values. -/
theorem extension_dispatch_case_insensitive (p : String)
    (h : strLower (pathSuffix p) = ".csv") : load_format p = Format.csv := by
  unfold load_format
  rw [if_pos h]

theorem extension_dispatch_case_insensitive_witness :
    strLower (pathSuffix "dados.CSV") = ".csv" ∧
      load_format "dados.CSV" = Format.csv :=
  ⟨by decide, extension_dispatch_case_insensitive "dados.CSV" (by decide)⟩

/-- C6: when the input path names no existing file, the pipeline stops with
a Loading error and the filesystem — in particular the output path — is
left unchanged. -/
theorem missing_input_loading_error (inputFile output : FsPath) (fs : FS)
    (h : lookupFile fs inputFile = none) :
    main_run inputFile output fs = (fs, some AppError.loading) := by
  unfold main_run load_dataset
  rw [h]

theorem missing_input_loading_error_witness :
    lookupFile ⟨[], []⟩ ["dados.csv"] = none ∧
      main_run ["dados.csv"] ["outputs", "projecoes.png"] ⟨[], []⟩ =
        (⟨[], []⟩, some AppError.loading) :=
  ⟨by decide, missing_input_loading_error ["dados.csv"]
    ["outputs", "projecoes.png"] ⟨[], []⟩ (by decide)⟩

/-- C7: when the aggregation succeeds, `plot_projections` reports no
error, every parent directory of the output path exists afterwards, and
the image of the aggregated data sits at the output path — regardless of
what was there before (silent overwrite). -/
theorem output_dirs_created_and_image_written (df : DataFrame)
    (output : FsPath) (fs : FS) (tbl : WeeklyTable)
    (hok : aggregateWeekly df = Except.ok tbl) :
    (plot_projections df output fs).2 = none ∧
    (∀ d ∈ ancestors output.dropLast,
      d ∈ (plot_projections df output fs).1.dirs) ∧
    lookupFile (plot_projections df output fs).1 output =
      some (FileData.image tbl) := by
  unfold plot_projections
  rw [hok]
  refine ⟨rfl, ?_, ?_⟩
  · intro d hd
    unfold writeFile mkdirParents
    simp only [List.mem_append]
    exact Or.inr hd
  · unfold lookupFile writeFile mkdirParents
    simp

theorem output_dirs_created_and_image_written_witness :
    (aggregateWeekly exampleDf = Except.ok
      [(Value.num 1, [Value.num 15, Value.num 18, Value.num 3, Value.num 70])]) ∧
    ((plot_projections exampleDf ["outputs", "projecoes.png"] outFs).2 = none ∧
      (∀ d ∈ ancestors (["outputs", "projecoes.png"] : FsPath).dropLast,
        d ∈ (plot_projections exampleDf ["outputs", "projecoes.png"] outFs).1.dirs) ∧
      lookupFile (plot_projections exampleDf ["outputs", "projecoes.png"] outFs).1
          ["outputs", "projecoes.png"] =
        some (FileData.image
          [(Value.num 1, [Value.num 15, Value.num 18, Value.num 3, Value.num 70])])) :=
  ⟨by decide, output_dirs_created_and_image_written exampleDf
    ["outputs", "projecoes.png"] outFs
    [(Value.num 1, [Value.num 15, Value.num 18, Value.num 3, Value.num 70])]
    (by decide)⟩

/-- C3: when the week column or any metric column is absent,
`plot_projections` raises a Missing-Column error and the filesystem — in
particular the output path — is left unchanged. -/
theorem missing_column_error_no_write (df : DataFrame) (output : FsPath)
    (fs : FS) (h : "Semana" ∉ df.cols ∨ ∃ m ∈ METRICS, m ∉ df.cols) :
    (∃ c, (plot_projections df output fs).2 =
        some (PlotError.missingColumn c)) ∧
    (plot_projections df output fs).1 = fs := by
  have herr : ∃ c, aggregateWeekly df =
      Except.error (PlotError.missingColumn c) := by
    unfold aggregateWeekly
    by_cases hsem : "Semana" ∈ df.cols
    · rcases h with h | ⟨m, hm, hnot⟩
      · exact absurd hsem h
      · rw [if_pos hsem]
        have hsome : (METRICS.find? (fun m => decide (m ∉ df.cols))).isSome := by
          rw [List.find?_isSome]
          exact ⟨m, hm, by simpa using hnot⟩
        obtain ⟨c, hc⟩ := Option.isSome_iff_exists.mp hsome
        rw [hc]
        exact ⟨c, rfl⟩
    · rw [if_neg hsem]
      exact ⟨"Semana", rfl⟩
  obtain ⟨c, hc⟩ := herr
  unfold plot_projections
  rw [hc]
  exact ⟨⟨c, rfl⟩, rfl⟩

theorem missing_column_error_no_write_witness :
    ("Semana" ∉ noColsDf.cols ∨ ∃ m ∈ METRICS, m ∉ noColsDf.cols) ∧
    ((∃ c, (plot_projections noColsDf ["outputs", "projecoes.png"] ⟨[], []⟩).2 =
        some (PlotError.missingColumn c)) ∧
      (plot_projections noColsDf ["outputs", "projecoes.png"] ⟨[], []⟩).1 =
        ⟨[], []⟩) :=
  ⟨by decide, missing_column_error_no_write noColsDf
    ["outputs", "projecoes.png"] ⟨[], []⟩ (by decide)⟩

/-- C8: the `FILIAL` and `SKU` columns are not required — on any table
with the week column and numeric metric columns, `plot_projections`
succeeds even though `FILIAL` and `SKU` are absent. -/
theorem filial_sku_not_required (df : DataFrame) (output : FsPath) (fs : FS)
    (hc : HasRequiredCols df) (hn : NumericMetrics df)
    (_hfilial : "FILIAL" ∉ df.cols) (_hsku : "SKU" ∉ df.cols) :
    (plot_projections df output fs).2 = none := by
  unfold plot_projections
  rw [aggregateWeekly_ok hc hn]

theorem filial_sku_not_required_witness :
    (HasRequiredCols noIdDf ∧ NumericMetrics noIdDf ∧
      "FILIAL" ∉ noIdDf.cols ∧ "SKU" ∉ noIdDf.cols) ∧
    (plot_projections noIdDf ["outputs", "projecoes.png"] ⟨[], []⟩).2 = none :=
  ⟨⟨by decide, by decide, by decide, by decide⟩,
    filial_sku_not_required noIdDf ["outputs", "projecoes.png"] ⟨[], []⟩
      (by decide) (by decide) (by decide) (by decide)⟩

/-- C4 counterexample: a table whose `Venda` metric column holds strings
(non-numeric values) does not make the operation fail — the aggregation
succeeds, concatenating the strings — so "absent **or contains
non-numeric values** implies failure before aggregation" is false as
stated. -/
theorem string_metric_aggregates_without_failure :
    (strDf.rows.map (fun r => r.cell "Venda")) =
      [some (Value.str "ab"), some (Value.str "cd")] ∧
    aggregateWeekly strDf = Except.ok
      [(Value.num 1, [Value.str "abcd", Value.num 3, Value.num 3, Value.num 3])] := by
  constructor
  · decide
  · decide

/-- C4 amended: when one of the four metric columns is absent the
operation does fail before the aggregation step — the error is the
missing-column KeyError raised by the column selection, never the
type error a mixed-type sum would raise; but non-numeric (string) metric
values do not cause a failure. -/
theorem absent_metric_fails_before_aggregation (df : DataFrame)
    (h : ∃ m ∈ METRICS, m ∉ df.cols) :
    ∃ c, aggregateWeekly df = Except.error (PlotError.missingColumn c) := by
  unfold aggregateWeekly
  by_cases hsem : "Semana" ∈ df.cols
  · rw [if_pos hsem]
    obtain ⟨m, hm, hnot⟩ := h
    have hsome : (METRICS.find? (fun m => decide (m ∉ df.cols))).isSome := by
      rw [List.find?_isSome]
      exact ⟨m, hm, by simpa using hnot⟩
    obtain ⟨c, hc⟩ := Option.isSome_iff_exists.mp hsome
    rw [hc]
    exact ⟨c, rfl⟩
  · rw [if_neg hsem]
    exact ⟨"Semana", rfl⟩

theorem absent_metric_fails_before_aggregation_witness :
    (∃ m ∈ METRICS, m ∉ (⟨["Semana"], []⟩ : DataFrame).cols) ∧
    ∃ c, aggregateWeekly ⟨["Semana"], []⟩ =
      Except.error (PlotError.missingColumn c) :=
  ⟨by decide, absent_metric_fails_before_aggregation ⟨["Semana"], []⟩ (by decide)⟩

/-- C2: on success, the aggregated table has exactly one row per distinct
week value of the input (N rows for N distinct weeks), and its rows are
sorted ascending by the week identifier. -/
theorem aggregated_rows_distinct_sorted (df : DataFrame) (tbl : WeeklyTable)
    (h : aggregateWeekly df = Except.ok tbl) :
    tbl.length = (weekCells df).dedup.length ∧
    (∀ w : Value, w ∈ tbl.map Prod.fst ↔ w ∈ weekCells df) ∧
    (tbl.map Prod.fst).Nodup ∧
    List.Sorted ValueLe (tbl.map Prod.fst) := by
  have hfst : tbl.map Prod.fst = sortedWeeks df :=
    weeklyRows_fst (aggregate_ok_weeklyRows h)
  have hlen : tbl.length = (tbl.map Prod.fst).length := by
    rw [List.length_map]
  refine ⟨?_, ?_, ?_, ?_⟩
  · rw [hlen, hfst]
    unfold sortedWeeks
    exact List.length_insertionSort _ _
  · intro w
    rw [hfst]
    unfold sortedWeeks
    rw [List.mem_insertionSort, List.mem_dedup]
  · rw [hfst]
    unfold sortedWeeks
    exact ((List.perm_insertionSort ValueLe _).nodup_iff).mpr
      (List.nodup_dedup _)
  · rw [hfst]
    exact List.sorted_insertionSort ValueLe _

theorem aggregated_rows_distinct_sorted_witness :
    (aggregateWeekly exampleDf = Except.ok
      [(Value.num 1, [Value.num 15, Value.num 18, Value.num 3, Value.num 70])]) ∧
    (([(Value.num 1,
          [Value.num 15, Value.num 18, Value.num 3, Value.num 70])] :
        WeeklyTable).length = (weekCells exampleDf).dedup.length ∧
      (∀ w : Value,
        w ∈ ([(Value.num 1,
            [Value.num 15, Value.num 18, Value.num 3, Value.num 70])] :
          WeeklyTable).map Prod.fst ↔ w ∈ weekCells exampleDf) ∧
      (([(Value.num 1,
          [Value.num 15, Value.num 18, Value.num 3, Value.num 70])] :
        WeeklyTable).map Prod.fst).Nodup ∧
      List.Sorted ValueLe (([(Value.num 1,
          [Value.num 15, Value.num 18, Value.num 3, Value.num 70])] :
        WeeklyTable).map Prod.fst)) :=
  ⟨by decide, aggregated_rows_distinct_sorted exampleDf
    [(Value.num 1, [Value.num 15, Value.num 18, Value.num 3, Value.num 70])]
    (by decide)⟩

/-- C1: on a table with the required columns, all numeric, the aggregated
value of each metric at each occurring week equals the arithmetic sum of
that metric over the rows with that week, and permuting the input rows
leaves the aggregated result unchanged (exact arithmetic, so equality
rather than floating-point tolerance). -/
theorem weekly_sums_and_permutation_invariance (df : DataFrame)
    (hc : HasRequiredCols df) (hn : NumericMetrics df) (w : Value)
    (hw : w ∈ weekCells df) (i : Nat) (m : String)
    (hm : METRICS.get? i = some m) :
    aggValue (aggregateWeekly df) w i =
      some (Value.num (specMetricSum df w m)) ∧
    ∀ df2 : DataFrame, df2.cols = df.cols → df.rows.Perm df2.rows →
      aggregateWeekly df2 = aggregateWeekly df := by
  constructor
  · rw [aggregateWeekly_ok hc hn]
    simp only [aggValue]
    unfold canonWeekly
    rw [List.find?_map]
    have hmem : w ∈ sortedWeeks df := by
      unfold sortedWeeks
      rw [List.mem_insertionSort, List.mem_dedup]
      exact hw
    have hfind : (sortedWeeks df).find?
        ((fun p => decide (p.1 = w)) ∘ (fun w2 =>
          (w2, METRICS.map (fun m2 => Value.num (specMetricSum df w2 m2))))) =
        some w := find?_key_self hmem
    rw [hfind]
    have hm2 : METRICS[i]? = some m := by rw [← List.get?_eq_getElem?]; exact hm
    simp [hm2]
  · intro df2 hcols hperm
    have hc2 : HasRequiredCols df2 := by
      unfold HasRequiredCols at hc ⊢
      rw [hcols]
      exact hc
    have hn2 : NumericMetrics df2 := by
      intro r hr m2 hm2
      exact hn r (hperm.symm.subset hr) m2 hm2
    rw [aggregateWeekly_ok hc hn, aggregateWeekly_ok hc2 hn2]
    have hweek : sortedWeeks df2 = sortedWeeks df := by
      have hcells : (weekCells df).Perm (weekCells df2) := hperm.filterMap _
      unfold sortedWeeks
      exact List.eq_of_perm_of_sorted
        (((List.perm_insertionSort _ _).trans hcells.symm.dedup).trans
          (List.perm_insertionSort _ _).symm)
        (List.sorted_insertionSort _ _) (List.sorted_insertionSort _ _)
    have hspec : ∀ w2 m2, specMetricSum df2 w2 m2 = specMetricSum df w2 m2 := by
      intro w2 m2
      unfold specMetricSum
      exact ((hperm.filter _).filterMap _).sum_eq.symm
    unfold canonWeekly
    rw [hweek]
    have hfun : (fun w2 =>
        (w2, METRICS.map (fun m2 => Value.num (specMetricSum df2 w2 m2)))) =
        (fun w2 =>
          (w2, METRICS.map (fun m2 => Value.num (specMetricSum df w2 m2)))) := by
      funext w2
      simp [hspec]
    rw [hfun]

theorem weekly_sums_and_permutation_invariance_witness :
    (HasRequiredCols exampleDf ∧ NumericMetrics exampleDf ∧
      Value.num 1 ∈ weekCells exampleDf ∧ METRICS.get? 0 = some "Venda") ∧
    (aggValue (aggregateWeekly exampleDf) (Value.num 1) 0 =
        some (Value.num (specMetricSum exampleDf (Value.num 1) "Venda")) ∧
      ∀ df2 : DataFrame, df2.cols = exampleDf.cols →
        exampleDf.rows.Perm df2.rows →
        aggregateWeekly df2 = aggregateWeekly exampleDf) :=
  ⟨⟨by decide, by decide, by decide, by decide⟩,
    weekly_sums_and_permutation_invariance exampleDf (by decide) (by decide)
      (Value.num 1) (by decide) 0 "Venda" (by decide)⟩

/-- C10: tables whose rows agree on the week column and the four metric
columns aggregate identically — the values of any other columns (such as
`FILIAL` and `SKU`) have no influence on the result. -/
theorem aggregation_ignores_other_columns (df1 df2 : DataFrame)
    (h1 : HasRequiredCols df1) (h2 : HasRequiredCols df2)
    (hrows : df1.rows.map restrictRow = df2.rows.map restrictRow) :
    aggregateWeekly df1 = aggregateWeekly df2 := by
  rw [aggregateWeekly_eq_of_hasCols h1, aggregateWeekly_eq_of_hasCols h2,
    weeklyRows_restrict hrows]

theorem aggregation_ignores_other_columns_witness :
    (HasRequiredCols exampleDf ∧ HasRequiredCols exampleDfVariant ∧
      exampleDf.rows.map restrictRow = exampleDfVariant.rows.map restrictRow) ∧
    aggregateWeekly exampleDf = aggregateWeekly exampleDfVariant :=
  ⟨⟨by decide, by decide, by decide⟩,
    aggregation_ignores_other_columns exampleDf exampleDfVariant
      (by decide) (by decide) (by decide)⟩
